import Mathlib

/-!
Shallow embedding of the two matching-cost factors of gtsam_points:
`integrated_gicp_factor_impl.hpp` (the distribution-to-distribution / GICP policy) and
`integrated_color_consistency_factor_impl.hpp` (the photometric policy).

Doubles are modelled as real numbers.  An `Eigen::Vector4d` is a function on the index
type `V4 := Fin 3 ⊕ Fin 1` (`Sum.inl k` is coordinate `k < 3`, `Sum.inr 0` is the
homogeneous coordinate 3) and an `Eigen::Matrix4d` is `Matrix V4 V4 ℝ`; the 6-dimensional
tangent-space index is `P6 := Fin 3 ⊕ Fin 3` (rotation block first, translation block
second, as in the `block<3,3>(0,0)` / `block<3,3>(0,3)` assignments of the source).
`std::vector` arrays indexed by source point are functions `ℕ → _` together with an
explicit stored length (`corrSize`), which is what the `.size()` checks of the source
read.  The OpenMP parallel-for loops accumulate order-independent sums of per-point
contributions into thread-local storage and then merge; they are modelled as
`Finset.range` sums over the per-point contribution functions (the merged result does
not depend on the thread count, only the summands matter).
-/

noncomputable section

namespace GtsamPoints

open scoped Matrix

abbrev V4 := Fin 3 ⊕ Fin 1
abbrev P6 := Fin 3 ⊕ Fin 3
abbrev Vec4 := V4 → ℝ
abbrev Mat4 := Matrix V4 V4 ℝ

/-- the homogeneous index 3 of a 4-vector / 4×4 matrix. -/
def w4 : V4 := Sum.inr 0

/-- first three coordinates (`.head<3>()`) of a homogeneous 4-vector. -/
def head3 (v : Vec4) : Fin 3 → ℝ := fun k => v (Sum.inl k)

/-- an `Eigen::Isometry3d`: rotation matrix plus translation. -/
structure Iso where
  R : Matrix (Fin 3) (Fin 3) ℝ
  t : Fin 3 → ℝ

/-- homogeneous 4×4 matrix `delta.matrix()` of an isometry. -/
def Iso.mat (d : Iso) : Mat4 :=
  Matrix.fromBlocks d.R (Matrix.of fun i (_ : Fin 1) => d.t i) 0 1

/-- application of an isometry to a homogeneous 4-vector (`delta * pt`). -/
def Iso.apply (d : Iso) (v : Vec4) : Vec4 := d.mat.mulVec v

/-- `delta.inverse()` of an isometry (Eigen uses the rotation transpose). -/
def Iso.inv (d : Iso) : Iso := ⟨d.Rᵀ, -(Matrix.mulVec d.Rᵀ d.t)⟩

/-- composition `a * b` of two isometries. -/
def Iso.comp (a b : Iso) : Iso := ⟨a.R * b.R, a.R.mulVec b.t + a.t⟩

/-- identity isometry. -/
def isoId : Iso := ⟨1, 0⟩

/-- rotation angle reported by `Eigen::AngleAxisd(R).angle()` on a rotation matrix:
`arccos((tr R - 1)/2)`, the principal angle in `[0, π]`. -/
def rotAngle (R : Matrix (Fin 3) (Fin 3) ℝ) : ℝ :=
  Real.arccos ((Matrix.trace R - 1) / 2)

/-- euclidean norm `t.norm()` of a translation. -/
def norm3 (t : Fin 3 → ℝ) : ℝ := Real.sqrt (t 0 ^ 2 + t 1 ^ 2 + t 2 ^ 2)

/-- skew-symmetric (hat) matrix `gtsam::SO3::Hat(v)`. -/
def so3Hat (v : Fin 3 → ℝ) : Matrix (Fin 3) (Fin 3) ℝ :=
  Matrix.of ![![0, -v 2, v 1], ![v 2, 0, -v 0], ![-v 1, v 0, 0]]

/-- per-point attributes of a point cloud (the `frame::` accessor functions). -/
structure Frame where
  size : ℕ
  point : ℕ → Vec4
  normal : ℕ → Vec4
  cov : ℕ → Mat4
  intensity : ℕ → ℝ

/-- external nearest-neighbor provider: `knn_search(pt.data(), 1, &k_idx, &k_sq_dist,
max_sq_dist)`, returning at most one (index, squared distance) result. -/
abbrev KnnSearch := Vec4 → ℝ → Option (ℕ × ℝ)

/-- configuration and immutable inputs of `IntegratedGICPFactor_`. -/
structure GicpFactor where
  target : Frame
  source : Frame
  targetTree : KnnSearch
  maxDistSq : ℝ
  tolRot : ℝ
  tolTrans : ℝ

/-- configuration and immutable inputs of `IntegratedColorConsistencyFactor_`. -/
structure ColorFactor where
  target : Frame
  source : Frame
  targetGradients : ℕ → Vec4
  targetTree : KnnSearch
  maxDistSq : ℝ
  photoWeight : ℝ
  tolRot : ℝ
  tolTrans : ℝ

/-- mutable state of the GICP factor: the correspondence array (a valid target index or
the negative sentinel, modelled as `Option`), its stored length, the Mahalanobis weight
array, and the tolerance reference pose `last_correspondence_point`. -/
structure GicpState where
  corr : ℕ → Option ℕ
  corrSize : ℕ
  mahal : ℕ → Mat4
  last : Iso

/-- mutable state of the color-consistency factor. -/
structure ColorState where
  corr : ℕ → Option ℕ
  corrSize : ℕ
  last : Iso

/-- tolerance check shared by both `update_correspondences` implementations (GICP lines
98–106, color lines 76–84): the refresh is skipped iff the correspondence array already
has source size, at least one tolerance is enabled, and the relative motion
`delta.inverse() * last_correspondence_point` has rotation angle and translation norm
strictly below the respective tolerances. -/
def skipRefresh (currSize srcSize : ℕ) (tolR tolT : ℝ) (last delta : Iso) : Prop :=
  currSize = srcSize ∧ (tolT > 0 ∨ tolR > 0) ∧
    rotAngle ((delta.inv.comp last).R) < tolR ∧ norm3 ((delta.inv.comp last).t) < tolT

instance (currSize srcSize : ℕ) (tolR tolT : ℝ) (last delta : Iso) :
    Decidable (skipRefresh currSize srcSize tolR tolT last delta) := by
  unfold skipRefresh; infer_instance

/-- correspondence search for one source point (GICP lines 118–123): transform the point
by delta, query the tree, and accept only a result whose squared distance is strictly
below `max_correspondence_distance_sq`; the `-1` sentinel is `none`. -/
def gicpCorrQuery (f : GicpFactor) (delta : Iso) (i : ℕ) : Option ℕ :=
  match f.targetTree (delta.apply (f.source.point i)) f.maxDistSq with
  | none => none
  | some (j, sqDist) => if sqDist < f.maxDistSq then some j else none

/-- overwriting of a homogeneous slot: `pt[3] = value`. -/
def setW (v : Vec4) (a : ℝ) : Vec4 := fun k => if k = w4 then a else v k

/-- correspondence search for one source point in the photometric policy (color lines
90–98): as in GICP, but the query point's homogeneous slot is overwritten with the
source point's intensity before the tree is queried. -/
def colorCorrQuery (f : ColorFactor) (delta : Iso) (i : ℕ) : Option ℕ :=
  match f.targetTree (setW (delta.apply (f.source.point i)) (f.source.intensity i))
      f.maxDistSq with
  | none => none
  | some (j, sqDist) => if sqDist < f.maxDistSq then some j else none

/-- overwriting of the homogeneous (3,3) entry of a 4×4 matrix. -/
def setW33 (M : Mat4) (a : ℝ) : Mat4 :=
  Matrix.of fun r c => if r = w4 ∧ c = w4 then a else M r c

/-- per-correspondence Mahalanobis weight (GICP lines 126–135): for a matched index,
`RCR = target_cov + delta.matrix() * source_cov * delta.matrix()ᵀ`, force `RCR(3,3) = 1`,
invert, then zero the (3,3) entry (only that entry) of the inverse; an unmatched point
gets the zero matrix. -/
def mahalWeight (f : GicpFactor) (delta : Iso) (i : ℕ) : Option ℕ → Mat4
  | none => 0
  | some j =>
    setW33 (setW33 (f.target.cov j + delta.mat * f.source.cov i * delta.matᵀ) 1)⁻¹ 0

/-- `IntegratedGICPFactor_::update_correspondences` (lines 97–137): the tolerance check
decides `do_update`; the reference pose is assigned only when `do_update` holds (lines
108–110); the loop recomputes correspondence indices only when `do_update` holds but
always recomputes every Mahalanobis weight from the current `delta`.  The second
component counts the `knn_search` invocations the call issued. -/
def gicpUpdate (f : GicpFactor) (s : GicpState) (delta : Iso) : GicpState × ℕ :=
  let n := f.source.size
  if skipRefresh s.corrSize n f.tolRot f.tolTrans s.last delta then
    (⟨s.corr, n, fun i => mahalWeight f delta i (s.corr i), s.last⟩, 0)
  else
    let corr1 := fun i => gicpCorrQuery f delta i
    (⟨corr1, n, fun i => mahalWeight f delta i (corr1 i), delta⟩,
      ∑ _i ∈ Finset.range n, 1)

/-- `IntegratedColorConsistencyFactor_::update_correspondences` (lines 75–103): same
tolerance gate, but the reference pose `last_correspondence_point` is assigned
unconditionally after the loop (line 102), also when the refresh was skipped. -/
def colorUpdate (f : ColorFactor) (s : ColorState) (delta : Iso) : ColorState × ℕ :=
  let n := f.source.size
  if skipRefresh s.corrSize n f.tolRot f.tolTrans s.last delta then
    (⟨s.corr, n, delta⟩, 0)
  else
    (⟨fun i => colorCorrQuery f delta i, n, delta⟩, ∑ _i ∈ Finset.range n, 1)

/-- which of the five derivative output pointers were passed non-null by the caller. -/
structure Req where
  ht : Bool
  hs : Bool
  hts : Bool
  bt : Bool
  bs : Bool

/-- the all-five gate `H_target && H_source && H_target_source && b_target && b_source`
(GICP lines 161, 214; color lines 126, 195). -/
def Req.allFive (r : Req) : Bool := r.ht && r.hs && r.hts && r.bt && r.bs

/-- all five derivative outputs requested. -/
def reqAll : Req := ⟨true, true, true, true, true⟩

/-- no derivative output requested. -/
def reqNone : Req := ⟨false, false, false, false, false⟩

/-- the five derivative blocks: target/source/cross Hessians and target/source bias. -/
structure Blocks where
  Ht : Matrix P6 P6 ℝ
  Hs : Matrix P6 P6 ℝ
  Hts : Matrix P6 P6 ℝ
  bt : P6 → ℝ
  bs : P6 → ℝ

/-- zero value for all five blocks. -/
def Blocks.zero : Blocks := ⟨0, 0, 0, 0, 0⟩

/-- merge of per-point block contributions: the accumulators start from zero (GICP lines
162–166), each point adds its contribution, and the merge sums them into the zeroed
caller outputs (GICP lines 215–227); the partitioning among OpenMP workers does not
change this sum. -/
def blocksSum (n : ℕ) (g : ℕ → Blocks) : Blocks :=
  ⟨∑ i ∈ Finset.range n, (g i).Ht, ∑ i ∈ Finset.range n, (g i).Hs,
   ∑ i ∈ Finset.range n, (g i).Hts, ∑ i ∈ Finset.range n, (g i).bt,
   ∑ i ∈ Finset.range n, (g i).bs⟩

/-- per-point residual `error = mean_B - delta * mean_A` (GICP line 183). -/
def gicpError (f : GicpFactor) (delta : Iso) (i j : ℕ) : Vec4 :=
  f.target.point j - delta.apply (f.source.point i)

/-- per-point cost contribution of the GICP evaluate loop (lines 171–185): an unmatched
point is skipped, a matched one adds `0.5 * errorᵀ * mahalanobis[i] * error`. -/
def gicpPointCost (f : GicpFactor) (s : GicpState) (delta : Iso) (i : ℕ) : ℝ :=
  match s.corr i with
  | none => 0
  | some j =>
    0.5 * Matrix.dotProduct (gicpError f delta i j)
      (Matrix.mulVec (s.mahal i) (gicpError f delta i j))

/-- `J_target` of the GICP evaluate (lines 191–193): rotation block
`-Hat(transed_mean_A.head<3>())`, translation block the identity, last row zero. -/
def gicpJtarget (transed : Vec4) : Matrix V4 P6 ℝ :=
  Matrix.fromBlocks (-(so3Hat (head3 transed))) 1 0 0

/-- `J_source` of the GICP evaluate (lines 195–197): rotation block
`delta.linear() * Hat(mean_A.head<3>())`, translation block `-delta.linear()`. -/
def gicpJsource (delta : Iso) (meanA : Vec4) : Matrix V4 P6 ℝ :=
  Matrix.fromBlocks (delta.R * so3Hat (head3 meanA)) (-delta.R) 0 0

/-- per-point derivative contribution of the GICP evaluate loop (lines 191–211): an
unmatched point contributes nothing; a matched one adds `Jᵀ W J` Hessian blocks and
`Jᵀ W error` bias blocks through `J_target_mahalanobis` and `J_source_mahalanobis`. -/
def gicpPointBlocks (f : GicpFactor) (s : GicpState) (delta : Iso) (i : ℕ) : Blocks :=
  match s.corr i with
  | none => Blocks.zero
  | some j =>
    let e := gicpError f delta i j
    let Jt := gicpJtarget (delta.apply (f.source.point i))
    let Js := gicpJsource delta (f.source.point i)
    let JtM := Jtᵀ * s.mahal i
    let JsM := Jsᵀ * s.mahal i
    ⟨JtM * Jt, JsM * Js, JtM * Js, Matrix.mulVec JtM e, Matrix.mulVec JsM e⟩

/-- result of an `evaluate` call: the returned scalar cost, the five caller-owned output
blocks after the call (identical to the values passed in when they were not written),
and the factor state after the call. -/
structure GicpEvalResult where
  cost : ℝ
  out : Blocks
  state : GicpState

/-- `IntegratedGICPFactor_::evaluate` (lines 140–231): refresh the correspondences iff
the array length mismatches the source size (line 148); accumulate the scalar cost over
all points; accumulate and write out the five derivative blocks iff all five output
pointers are non-null (the loop gate `Hs_target.empty()` at line 187 and the write-out
gate at line 214 are both equivalent to the all-five condition of line 161). -/
def gicpEvaluate (f : GicpFactor) (s : GicpState) (delta : Iso) (req : Req)
    (out : Blocks) : GicpEvalResult :=
  let n := f.source.size
  let s1 := if s.corrSize = n then s else (gicpUpdate f s delta).1
  let cost := ∑ i ∈ Finset.range n, gicpPointCost f s1 delta i
  let out1 := if req.allFive then blocksSum n (fun i => gicpPointBlocks f s1 delta i)
    else out
  ⟨cost, out1, s1⟩

/-- per-point photometric residual (color lines 151–156): transform the source point,
project it onto the target tangent plane, and compare the linearized target intensity at
the projection with the source intensity. -/
def colorResidual (f : ColorFactor) (delta : Iso) (i j : ℕ) : ℝ :=
  let transed := delta.apply (f.source.point i)
  let projected := transed -
    (Matrix.dotProduct (transed - f.target.point j) (f.target.normal j)) • f.target.normal j
  f.target.intensity j +
    Matrix.dotProduct (f.targetGradients j) (projected - f.target.point j) -
    f.source.intensity i

/-- per-point cost contribution of the photometric evaluate loop (color lines 136–158):
an unmatched point is skipped, a matched one adds
`0.5 * error_photo * photometric_term_weight * error_photo`. -/
def colorPointCost (f : ColorFactor) (s : ColorState) (delta : Iso) (i : ℕ) : ℝ :=
  match s.corr i with
  | none => 0
  | some j => 0.5 * colorResidual f delta i j * f.photoWeight * colorResidual f delta i j

/-- `J_transed_target` of the photometric evaluate (color lines 169–171): rotation block
`+Hat(transed_A.head<3>())`, translation block minus the identity. -/
def colorJtarget (transed : Vec4) : Matrix V4 P6 ℝ :=
  Matrix.fromBlocks (so3Hat (head3 transed)) (-1) 0 0

/-- `J_transed_source` of the photometric evaluate (color lines 173–175): rotation block
`-delta.linear() * Hat(mean_A.head<3>())`, translation block `delta.linear()`. -/
def colorJsource (delta : Iso) (meanA : Vec4) : Matrix V4 P6 ℝ :=
  Matrix.fromBlocks (-(delta.R * so3Hat (head3 meanA))) delta.R 0 0

/-- per-point derivative contribution of the photometric evaluate loop (color lines
169–192): the tangent-plane projector `I - n nᵀ` with its (3,3) entry zeroed is chained
with the intensity gradient row vector and the two pose Jacobians; outer products scaled
by the scalar photometric weight are accumulated. -/
def colorPointBlocks (f : ColorFactor) (s : ColorState) (delta : Iso) (i : ℕ) : Blocks :=
  match s.corr i with
  | none => Blocks.zero
  | some j =>
    let e := colorResidual f delta i j
    let Jpt := setW33 ((1 : Mat4) - Matrix.vecMulVec (f.target.normal j) (f.target.normal j)) 0
    let JeTransed := Matrix.vecMul (f.targetGradients j) Jpt
    let Jet := Matrix.vecMul JeTransed (colorJtarget (delta.apply (f.source.point i)))
    let Jes := Matrix.vecMul JeTransed (colorJsource delta (f.source.point i))
    ⟨f.photoWeight • Matrix.vecMulVec Jet Jet, f.photoWeight • Matrix.vecMulVec Jes Jes,
     f.photoWeight • Matrix.vecMulVec Jet Jes, (f.photoWeight * e) • Jet,
     (f.photoWeight * e) • Jes⟩

/-- result of a photometric `evaluate` call. -/
structure ColorEvalResult where
  cost : ℝ
  out : Blocks
  state : ColorState

/-- `IntegratedColorConsistencyFactor_::evaluate` (color lines 105–212): refresh iff the
array length mismatches the source size (line 114); accumulate the scalar cost over all
points; write out the five derivative blocks iff all five output pointers are non-null
(lines 126, 195). -/
def colorEvaluate (f : ColorFactor) (s : ColorState) (delta : Iso) (req : Req)
    (out : Blocks) : ColorEvalResult :=
  let n := f.source.size
  let s1 := if s.corrSize = n then s else (colorUpdate f s delta).1
  let cost := ∑ i ∈ Finset.range n, colorPointCost f s1 delta i
  let out1 := if req.allFive then blocksSum n (fun i => colorPointBlocks f s1 delta i)
    else out
  ⟨cost, out1, s1⟩

/-- the source-pose Jacobian as the claim words it: rotational block
`delta.R * Hat(p)`, translational block minus the identity (refinement reference for C5;
the code instead uses `-delta.R` as translational block). -/
def claimJsource (delta : Iso) (meanA : Vec4) : Matrix V4 P6 ℝ :=
  Matrix.fromBlocks (delta.R * so3Hat (head3 meanA)) (-1) 0 0

/-- concrete homogeneous point (0,0,0,1). -/
def p0Ex : Vec4 := Sum.elim (fun _ => 0) (fun _ => 1)

/-- concrete unit normal (0,0,1,0). -/
def zNormal : Vec4 := Sum.elim ![0, 0, 1] (fun _ => 0)

/-- concrete one-point frame: point (0,0,0,1), normal (0,0,1,0), identity covariance,
intensity 0. -/
def frameEx : Frame := ⟨1, fun _ => p0Ex, fun _ => zNormal, fun _ => 1, fun _ => 0⟩

/-- concrete provider always reporting target index 0 at squared distance 0. -/
def treeEx : KnnSearch := fun _ _ => some (0, 0)

/-- concrete GICP factor over the one-point frames with all tolerances 1. -/
def gicpFactorEx : GicpFactor := ⟨frameEx, frameEx, treeEx, 1, 1, 1⟩

/-- concrete GICP factor with `max_correspondence_distance_sq = 0`. -/
def gicpFactorMax0 : GicpFactor := ⟨frameEx, frameEx, treeEx, 0, 1, 1⟩

/-- concrete color factor over the one-point frames, zero gradients, unit weight. -/
def colorFactorEx : ColorFactor := ⟨frameEx, frameEx, fun _ => 0, treeEx, 1, 1, 1, 1⟩

/-- concrete color factor with `max_correspondence_distance_sq = 0`. -/
def colorFactorMax0 : ColorFactor := ⟨frameEx, frameEx, fun _ => 0, treeEx, 0, 1, 1, 1⟩

/-- concrete GICP state: correspondence array of length 1 mapping to target 0, zero
weights, reference pose the identity. -/
def gicpStateEx : GicpState := ⟨fun _ => some 0, 1, fun _ => 0, isoId⟩

/-- concrete GICP state with unmatched correspondences. -/
def gicpStateNone : GicpState := ⟨fun _ => none, 1, fun _ => 0, isoId⟩

/-- concrete fresh GICP state (empty arrays, forcing a rebuild). -/
def gicpStateFresh : GicpState := ⟨fun _ => none, 0, fun _ => 0, isoId⟩

/-- concrete color state mirroring `gicpStateEx`. -/
def colorStateEx : ColorState := ⟨fun _ => some 0, 1, isoId⟩

/-- concrete fresh color state. -/
def colorStateFresh : ColorState := ⟨fun _ => none, 0, isoId⟩

/-- concrete delta: pure translation by (1/2, 0, 0), within unit tolerances of the
identity but different from it. -/
def deltaHalf : Iso := ⟨1, ![1/2, 0, 0]⟩

/-- concrete rotation by 90° about the z axis. -/
def rotZ90 : Iso := ⟨Matrix.of ![![0, -1, 0], ![1, 0, 0], ![0, 0, 1]], 0⟩

/-- concrete 4×4 symmetric positive-definite covariance with a nonzero homogeneous
off-diagonal entry (the (2,3)/(3,2) pair), used to refute the C4 row/column claim. -/
def covC4 : Mat4 :=
  Matrix.fromBlocks (Matrix.of ![![1, 0, 0], ![0, 1, 0], ![0, 0, 2]])
    (Matrix.of ![![0], ![0], ![1]]) (Matrix.of ![![0, 0, 1]]) 1

/-- explicit inverse of `covC4`. -/
def covC4inv : Mat4 :=
  Matrix.fromBlocks (1 : Matrix (Fin 3) (Fin 3) ℝ)
    (Matrix.of ![![0], ![0], ![-1]]) (Matrix.of ![![0, 0, -1]]) (Matrix.of ![![2]])

/-- concrete frame whose single covariance is `covC4`. -/
def frameC4 : Frame := ⟨1, fun _ => p0Ex, fun _ => zNormal, fun _ => covC4, fun _ => 0⟩

/-- concrete frame whose single covariance is the zero matrix. -/
def frameCov0 : Frame := ⟨1, fun _ => p0Ex, fun _ => zNormal, fun _ => 0, fun _ => 0⟩

/-- concrete GICP factor pairing the `covC4` target with a zero-covariance source. -/
def gicpFactorC4 : GicpFactor := ⟨frameC4, frameCov0, treeEx, 1, 1, 1⟩

/-- concrete 4×4 covariance with zero fourth row and column (identity on the geometric
3×3 block), the homogeneous-point covariance shape. -/
def covGeo : Mat4 := Matrix.fromBlocks (1 : Matrix (Fin 3) (Fin 3) ℝ) 0 0 0

/-- concrete frame whose single covariance is `covGeo`. -/
def frameGeo : Frame := ⟨1, fun _ => p0Ex, fun _ => zNormal, fun _ => covGeo, fun _ => 0⟩

/-- concrete GICP factor with `covGeo` covariances on both clouds. -/
def gicpFactorGeo : GicpFactor := ⟨frameGeo, frameGeo, treeEx, 1, 1, 1⟩

/-- the composed covariance `I + I·I·Iᵀ` after forcing the homogeneous entry to 1. -/
def matTwo : Mat4 :=
  Matrix.fromBlocks ((2 : ℝ) • (1 : Matrix (Fin 3) (Fin 3) ℝ)) 0 0 1

/-- explicit inverse of `matTwo`. -/
def matTwoInv : Mat4 :=
  Matrix.fromBlocks (((1 : ℝ) / 2) • (1 : Matrix (Fin 3) (Fin 3) ℝ)) 0 0 1

/-- the Mahalanobis weight arising in the identity scenario: `matTwoInv` with the
homogeneous entry zeroed. -/
def wGeo : Mat4 :=
  Matrix.fromBlocks (((1 : ℝ) / 2) • (1 : Matrix (Fin 3) (Fin 3) ℝ)) 0 0 0

lemma isoId_mat : isoId.mat = 1 := by
  ext r c
  rcases r with r | r <;> rcases c with c | c <;>
    simp [Iso.mat, isoId, Matrix.fromBlocks_apply₁₁, Matrix.fromBlocks_apply₁₂,
      Matrix.fromBlocks_apply₂₁, Matrix.fromBlocks_apply₂₂, Matrix.one_apply,
      Sum.inl.injEq, Sum.inr.injEq, Fin.fin_one_eq_zero]

lemma isoId_apply (v : Vec4) : isoId.apply v = v := by
  unfold Iso.apply
  rw [isoId_mat, Matrix.one_mulVec]

lemma rotAngle_one : rotAngle (1 : Matrix (Fin 3) (Fin 3) ℝ) = 0 := by
  unfold rotAngle
  rw [Matrix.trace_one]
  norm_num [Real.arccos_one]

lemma so3Hat_zero : so3Hat 0 = 0 := by
  unfold so3Hat
  ext i j
  fin_cases i <;> fin_cases j <;> simp [Matrix.vecHead, Matrix.vecTail]

lemma deltaHalf_diff :
    Iso.comp (Iso.inv deltaHalf) isoId = ⟨1, -(![1/2, 0, 0] : Fin 3 → ℝ)⟩ := by
  unfold deltaHalf isoId Iso.inv Iso.comp
  simp [Matrix.transpose_one, Matrix.one_mulVec, Matrix.mulVec_zero]

lemma norm3_negHalf : norm3 (-(![1/2, 0, 0] : Fin 3 → ℝ)) = 1 / 2 := by
  have h0 : (-(![1/2, 0, 0] : Fin 3 → ℝ)) 0 = -(1/2) := rfl
  have h1 : (-(![1/2, 0, 0] : Fin 3 → ℝ)) 1 = 0 := by
    norm_num [Matrix.cons_val_one, Matrix.head_cons]
  have h2 : (-(![1/2, 0, 0] : Fin 3 → ℝ)) 2 = 0 := by
    norm_num [Matrix.cons_val_two, Matrix.vecTail, Matrix.vecHead]
  unfold norm3
  rw [h0, h1, h2, show (-(1/2 : ℝ)) ^ 2 + 0 ^ 2 + 0 ^ 2 = (1/2 : ℝ) ^ 2 by norm_num,
    Real.sqrt_sq (by norm_num : (0:ℝ) ≤ 1/2)]

lemma rotAngle_diff_ex : rotAngle ((Iso.comp (Iso.inv deltaHalf) isoId).R) < 1 := by
  rw [show (Iso.comp (Iso.inv deltaHalf) isoId).R = 1 from congrArg Iso.R deltaHalf_diff,
    rotAngle_one]
  norm_num

lemma norm3_diff_ex : norm3 ((Iso.comp (Iso.inv deltaHalf) isoId).t) < 1 := by
  rw [show (Iso.comp (Iso.inv deltaHalf) isoId).t = -(![1/2, 0, 0] : Fin 3 → ℝ) from
    congrArg Iso.t deltaHalf_diff, norm3_negHalf]
  norm_num

lemma blocksSum_eq_zero (n : ℕ) (g : ℕ → Blocks) (h : ∀ i, g i = Blocks.zero) :
    blocksSum n g = Blocks.zero := by
  unfold blocksSum Blocks.zero
  simp [h, Blocks.zero]

/-- C2: for every pair of clouds, every cached state, and every delta, in both policies,
`evaluate` returns the same scalar cost when all five derivative outputs are requested
as when none is requested. -/
theorem C2_cost_independent_of_derivative_request
    (f : GicpFactor) (s : GicpState) (g : ColorFactor) (t : ColorState) (delta : Iso)
    (out1 out2 : Blocks) :
    (gicpEvaluate f s delta reqAll out1).cost =
        (gicpEvaluate f s delta reqNone out2).cost ∧
      (colorEvaluate g t delta reqAll out1).cost =
        (colorEvaluate g t delta reqNone out2).cost :=
  ⟨rfl, rfl⟩

/-- C10: in the GICP policy, when not all five derivative output pointers are provided,
the call performs no derivative write at all: the caller's blocks come back untouched
(not even zeroed) and the call computes exactly the cost-only result. -/
theorem C10_partial_request_writes_nothing
    (f : GicpFactor) (s : GicpState) (delta : Iso) (req : Req) (out : Blocks)
    (h : req.allFive = false) :
    (gicpEvaluate f s delta req out).out = out ∧
    (gicpEvaluate f s delta req out).cost = (gicpEvaluate f s delta reqNone out).cost ∧
    (gicpEvaluate f s delta req out).state = (gicpEvaluate f s delta reqNone out).state := by
  unfold gicpEvaluate
  simp [h]

/-- witness for C10 at a mixed request (`H_target` provided, the rest null). -/
theorem C10_witness :
    (⟨true, false, false, false, false⟩ : Req).allFive = false ∧
    (gicpEvaluate gicpFactorEx gicpStateEx isoId ⟨true, false, false, false, false⟩
      Blocks.zero).out = Blocks.zero :=
  ⟨rfl, (C10_partial_request_writes_nothing gicpFactorEx gicpStateEx isoId
    ⟨true, false, false, false, false⟩ Blocks.zero rfl).1⟩

/-- C3: with both correspondence-update tolerances strictly positive and the
correspondence array already of source length, a call to `update_correspondences` whose
delta is within both tolerances of the reference pose leaves the correspondence array
unchanged and issues no nearest-neighbor query, in both policies. -/
theorem C3_within_tolerance_skips_refresh
    (f : GicpFactor) (s : GicpState) (g : ColorFactor) (t : ColorState) (delta : Iso)
    (_hfr : 0 < f.tolRot) (hft : 0 < f.tolTrans)
    (hsz : s.corrSize = f.source.size)
    (hrot : rotAngle ((Iso.comp (Iso.inv delta) s.last).R) < f.tolRot)
    (htrn : norm3 ((Iso.comp (Iso.inv delta) s.last).t) < f.tolTrans)
    (_hgr : 0 < g.tolRot) (hgt : 0 < g.tolTrans)
    (htz : t.corrSize = g.source.size)
    (hrot2 : rotAngle ((Iso.comp (Iso.inv delta) t.last).R) < g.tolRot)
    (htrn2 : norm3 ((Iso.comp (Iso.inv delta) t.last).t) < g.tolTrans) :
    (gicpUpdate f s delta).1.corr = s.corr ∧ (gicpUpdate f s delta).2 = 0 ∧
      (colorUpdate g t delta).1.corr = t.corr ∧ (colorUpdate g t delta).2 = 0 := by
  have h1 : skipRefresh s.corrSize f.source.size f.tolRot f.tolTrans s.last delta := by
    unfold skipRefresh; exact ⟨hsz, Or.inl hft, hrot, htrn⟩
  have h2 : skipRefresh t.corrSize g.source.size g.tolRot g.tolTrans t.last delta := by
    unfold skipRefresh; exact ⟨htz, Or.inl hgt, hrot2, htrn2⟩
  unfold gicpUpdate colorUpdate
  rw [if_pos h1, if_pos h2]
  exact ⟨rfl, rfl, rfl, rfl⟩

/-- witness for C3: unit tolerances, identity reference pose, delta a half-unit
translation. -/
theorem C3_witness :
    (0 : ℝ) < 1 ∧
    (gicpUpdate gicpFactorEx gicpStateEx deltaHalf).1.corr = gicpStateEx.corr ∧
    (gicpUpdate gicpFactorEx gicpStateEx deltaHalf).2 = 0 ∧
    (colorUpdate colorFactorEx colorStateEx deltaHalf).1.corr = colorStateEx.corr ∧
    (colorUpdate colorFactorEx colorStateEx deltaHalf).2 = 0 := by
  have h := C3_within_tolerance_skips_refresh gicpFactorEx gicpStateEx colorFactorEx
    colorStateEx deltaHalf one_pos one_pos rfl rotAngle_diff_ex norm3_diff_ex
    one_pos one_pos rfl rotAngle_diff_ex norm3_diff_ex
  exact ⟨one_pos, h.1, h.2.1, h.2.2.1, h.2.2.2⟩

/-- C1 (code bug): in the photometric policy, with both tolerances positive and the
delta within tolerance of the reference pose, the refresh is skipped (correspondence
array kept, no query issued) yet `last_correspondence_point` is still overwritten with
the delta of the skipped call, contradicting the claim that the reference pose changes
iff the call recomputed the correspondences; the GICP policy does keep the reference
pose on a skipped call. -/
theorem C1_color_reference_updated_on_skipped_refresh :
    (colorUpdate colorFactorEx colorStateEx deltaHalf).2 = 0 ∧
    (colorUpdate colorFactorEx colorStateEx deltaHalf).1.corr = colorStateEx.corr ∧
    (colorUpdate colorFactorEx colorStateEx deltaHalf).1.last = deltaHalf ∧
    deltaHalf ≠ colorStateEx.last ∧
    (gicpUpdate gicpFactorEx gicpStateEx deltaHalf).1.last = gicpStateEx.last := by
  have h1 : skipRefresh colorStateEx.corrSize colorFactorEx.source.size
      colorFactorEx.tolRot colorFactorEx.tolTrans colorStateEx.last deltaHalf := by
    unfold skipRefresh
    exact ⟨rfl, Or.inl one_pos, rotAngle_diff_ex, norm3_diff_ex⟩
  have h2 : skipRefresh gicpStateEx.corrSize gicpFactorEx.source.size
      gicpFactorEx.tolRot gicpFactorEx.tolTrans gicpStateEx.last deltaHalf := by
    unfold skipRefresh
    exact ⟨rfl, Or.inl one_pos, rotAngle_diff_ex, norm3_diff_ex⟩
  refine ⟨?_, ?_, ?_, ?_, ?_⟩
  · unfold colorUpdate; rw [if_pos h1]
  · unfold colorUpdate; rw [if_pos h1]
  · unfold colorUpdate; rw [if_pos h1]
  · intro h
    have := congrArg (fun d => d.t 0) h
    norm_num [deltaHalf, colorStateEx, isoId] at this
  · unfold gicpUpdate; rw [if_pos h2]

/-- C9: every GICP `update_correspondences(delta)` call recomputes every Mahalanobis
weight from the delta passed to that very call (and to zero for an unmatched point),
even when the tolerance check skips recomputing the correspondence indices, in which
case the indices remain those computed under the earlier reference pose. -/
theorem C9_weights_recomputed_with_new_delta
    (f : GicpFactor) (s : GicpState) (delta : Iso) (i : ℕ) :
    (gicpUpdate f s delta).1.mahal i =
        mahalWeight f delta i ((gicpUpdate f s delta).1.corr i) ∧
      ((gicpUpdate f s delta).1.corr i = none → (gicpUpdate f s delta).1.mahal i = 0) ∧
      (skipRefresh s.corrSize f.source.size f.tolRot f.tolTrans s.last delta →
        (gicpUpdate f s delta).1.corr = s.corr ∧
          (gicpUpdate f s delta).1.mahal i = mahalWeight f delta i (s.corr i)) := by
  unfold gicpUpdate
  by_cases h : skipRefresh s.corrSize f.source.size f.tolRot f.tolTrans s.last delta
  · rw [if_pos h]
    refine ⟨rfl, fun hn => ?_, fun _ => ⟨rfl, rfl⟩⟩
    simp only at hn
    simp [hn, mahalWeight]
  · rw [if_neg h]
    refine ⟨rfl, fun hn => ?_, fun hk => absurd hk h⟩
    simp only at hn
    simp [hn, mahalWeight]

/-- witness for C9: a skipped refresh over an unmatched state still recomputes the
(zero) weight from the new delta and keeps the old indices. -/
theorem C9_witness :
    (gicpUpdate gicpFactorEx gicpStateNone deltaHalf).1.corr = gicpStateNone.corr ∧
    (gicpUpdate gicpFactorEx gicpStateNone deltaHalf).1.mahal 0 = 0 := by
  have hsk : skipRefresh gicpStateNone.corrSize gicpFactorEx.source.size
      gicpFactorEx.tolRot gicpFactorEx.tolTrans gicpStateNone.last deltaHalf := by
    unfold skipRefresh
    exact ⟨rfl, Or.inl one_pos, rotAngle_diff_ex, norm3_diff_ex⟩
  have h := C9_weights_recomputed_with_new_delta gicpFactorEx gicpStateNone deltaHalf 0
  refine ⟨(h.2.2 hsk).1, ?_⟩
  rw [(h.2.2 hsk).2]
  rfl

/-- C8: in the photometric policy every matched pair contributes exactly
`½ · photometric_term_weight · residual²` to the scalar cost, where the residual is
`target_intensity + gradient · (projected − target_mean) − source_intensity` and
`projected = transformed − ((transformed − target_mean) · normal) · normal` with
`transformed = delta · source_point`. -/
theorem C8_photometric_contribution_formula
    (f : ColorFactor) (s : ColorState) (delta : Iso) (i j : ℕ) (hij : s.corr i = some j) :
    colorPointCost f s delta i =
      1 / 2 * f.photoWeight *
        (f.target.intensity j +
            Matrix.dotProduct (f.targetGradients j)
              ((delta.apply (f.source.point i) -
                  Matrix.dotProduct (delta.apply (f.source.point i) - f.target.point j)
                      (f.target.normal j) • f.target.normal j) -
                f.target.point j) -
          f.source.intensity i) ^ 2 := by
  simp only [colorPointCost, colorResidual, hij]
  ring

/-- witness for C8 at the concrete one-point photometric factor and identity delta. -/
theorem C8_witness :
    colorStateEx.corr 0 = some 0 ∧
    colorPointCost colorFactorEx colorStateEx isoId 0 =
      1 / 2 * colorFactorEx.photoWeight *
        (colorFactorEx.target.intensity 0 +
            Matrix.dotProduct (colorFactorEx.targetGradients 0)
              ((isoId.apply (colorFactorEx.source.point 0) -
                  Matrix.dotProduct
                      (isoId.apply (colorFactorEx.source.point 0) -
                        colorFactorEx.target.point 0)
                      (colorFactorEx.target.normal 0) • colorFactorEx.target.normal 0) -
                colorFactorEx.target.point 0) -
          colorFactorEx.source.intensity 0) ^ 2 :=
  ⟨rfl, C8_photometric_contribution_formula colorFactorEx colorStateEx isoId 0 0 rfl⟩

/-- C5 (counterexample): at a 90° z-rotation delta the GICP source Jacobian's
translational block is `-delta.R` rather than minus the identity as claimed, and the
photometric policy does not share the GICP sign convention: its target Jacobian differs
from the GICP one at the same point. -/
theorem C5_counterexample :
    gicpJsource rotZ90 p0Ex ≠ claimJsource rotZ90 p0Ex ∧
      colorJtarget p0Ex ≠ gicpJtarget p0Ex := by
  constructor
  · intro h
    have h0 : gicpJsource rotZ90 p0Ex (Sum.inl 0) (Sum.inr 0) =
        claimJsource rotZ90 p0Ex (Sum.inl 0) (Sum.inr 0) := by rw [h]
    simp only [gicpJsource, claimJsource, Matrix.fromBlocks_apply₁₂] at h0
    rw [Matrix.neg_apply, Matrix.neg_apply, Matrix.one_apply_eq] at h0
    simp [rotZ90] at h0
  · intro h
    have h0 : colorJtarget p0Ex (Sum.inl 0) (Sum.inr 0) =
        gicpJtarget p0Ex (Sum.inl 0) (Sum.inr 0) := by rw [h]
    simp only [colorJtarget, gicpJtarget, Matrix.fromBlocks_apply₁₂] at h0
    rw [Matrix.neg_apply, Matrix.one_apply_eq] at h0
    norm_num at h0

/-- C5 (amended): the GICP target Jacobian has rotational block `−Hat(transformed)` and
translational block the identity; the GICP source Jacobian has rotational block
`delta.R · Hat(source_point)` and translational block `−delta.R` (minus delta's
rotation, not minus the identity); and the photometric policy uses exactly the negations
of both GICP Jacobians, i.e. the opposite sign convention, not the same blocks. -/
theorem C5_jacobian_blocks (delta : Iso) (v p : Vec4) :
    gicpJtarget v = Matrix.fromBlocks (-(so3Hat (head3 v))) 1 0 0 ∧
      gicpJsource delta p =
        Matrix.fromBlocks (delta.R * so3Hat (head3 p)) (-delta.R) 0 0 ∧
      colorJtarget v = -gicpJtarget v ∧
      colorJsource delta p = -gicpJsource delta p := by
  refine ⟨rfl, rfl, ?_, ?_⟩
  · ext r c
    rcases r with r | r <;> rcases c with c | c <;>
      simp [colorJtarget, gicpJtarget, Matrix.fromBlocks_apply₁₁,
        Matrix.fromBlocks_apply₁₂, Matrix.fromBlocks_apply₂₁, Matrix.fromBlocks_apply₂₂]
  · ext r c
    rcases r with r | r <;> rcases c with c | c <;>
      simp [colorJsource, gicpJsource, Matrix.fromBlocks_apply₁₁,
        Matrix.fromBlocks_apply₁₂, Matrix.fromBlocks_apply₂₁, Matrix.fromBlocks_apply₂₂]

/-- C7: an unmatched (sentinel) correspondence contributes zero cost and zero
derivative blocks in both policies; and with `max_correspondence_distance_sq = 0` (the
acceptance check being strict) and a provider reporting nonnegative squared distances, a
rebuilding `evaluate` maps every correspondence to the sentinel and returns total cost 0
with all five derivative output blocks zero. -/
theorem C7_unmatched_contributes_nothing
    (f : GicpFactor) (s : GicpState) (g : ColorFactor) (t : ColorState) (delta : Iso)
    (i : ℕ) (out : Blocks)
    (hgi : s.corr i = none) (hci : t.corr i = none)
    (hnn : ∀ q m j d, f.targetTree q m = some (j, d) → 0 ≤ d)
    (hmax : f.maxDistSq = 0) (hsz : s.corrSize ≠ f.source.size)
    (hnn2 : ∀ q m j d, g.targetTree q m = some (j, d) → 0 ≤ d)
    (hmax2 : g.maxDistSq = 0) (htz : t.corrSize ≠ g.source.size) :
    (gicpPointCost f s delta i = 0 ∧ gicpPointBlocks f s delta i = Blocks.zero ∧
        colorPointCost g t delta i = 0 ∧ colorPointBlocks g t delta i = Blocks.zero) ∧
      ((∀ k, (gicpEvaluate f s delta reqAll out).state.corr k = none) ∧
        (gicpEvaluate f s delta reqAll out).cost = 0 ∧
        (gicpEvaluate f s delta reqAll out).out = Blocks.zero) ∧
      ((∀ k, (colorEvaluate g t delta reqAll out).state.corr k = none) ∧
        (colorEvaluate g t delta reqAll out).cost = 0 ∧
        (colorEvaluate g t delta reqAll out).out = Blocks.zero) := by
  have hq : ∀ k, gicpCorrQuery f delta k = none := by
    intro k
    unfold gicpCorrQuery
    cases htree : f.targetTree (delta.apply (f.source.point k)) f.maxDistSq with
    | none => rfl
    | some r =>
      obtain ⟨j, d⟩ := r
      have hd := hnn _ _ _ _ htree
      show (if d < f.maxDistSq then some j else none) = none
      rw [hmax, if_neg (not_lt.mpr hd)]
  have hq2 : ∀ k, colorCorrQuery g delta k = none := by
    intro k
    unfold colorCorrQuery
    cases htree : g.targetTree (setW (delta.apply (g.source.point k))
        (g.source.intensity k)) g.maxDistSq with
    | none => rfl
    | some r =>
      obtain ⟨j, d⟩ := r
      have hd := hnn2 _ _ _ _ htree
      show (if d < g.maxDistSq then some j else none) = none
      rw [hmax2, if_neg (not_lt.mpr hd)]
  have hupd : ¬ skipRefresh s.corrSize f.source.size f.tolRot f.tolTrans s.last delta := by
    unfold skipRefresh
    exact fun hk => hsz hk.1
  have hupd2 : ¬ skipRefresh t.corrSize g.source.size g.tolRot g.tolTrans t.last delta := by
    unfold skipRefresh
    exact fun hk => htz hk.1
  have hstate : (gicpUpdate f s delta).1 =
      ⟨fun k => gicpCorrQuery f delta k, f.source.size,
        fun k => mahalWeight f delta k (gicpCorrQuery f delta k), delta⟩ := by
    unfold gicpUpdate
    rw [if_neg hupd]
  have hstate2 : (colorUpdate g t delta).1 =
      ⟨fun k => colorCorrQuery g delta k, g.source.size, delta⟩ := by
    unfold colorUpdate
    rw [if_neg hupd2]
  refine ⟨⟨?_, ?_, ?_, ?_⟩, ⟨?_, ?_, ?_⟩, ⟨?_, ?_, ?_⟩⟩
  · simp [gicpPointCost, hgi]
  · simp [gicpPointBlocks, hgi]
  · simp [colorPointCost, hci]
  · simp [colorPointBlocks, hci]
  · intro k
    simp only [gicpEvaluate]
    rw [if_neg hsz, hstate]
    exact hq k
  · simp only [gicpEvaluate]
    rw [if_neg hsz, hstate]
    exact Finset.sum_eq_zero fun k _ => by simp [gicpPointCost, hq k]
  · simp only [gicpEvaluate, reqAll, Req.allFive]
    rw [if_neg hsz, hstate]
    simp only [Bool.and_self, if_true]
    exact blocksSum_eq_zero _ _ fun k => by simp [gicpPointBlocks, hq k]
  · intro k
    simp only [colorEvaluate]
    rw [if_neg htz, hstate2]
    exact hq2 k
  · simp only [colorEvaluate]
    rw [if_neg htz, hstate2]
    exact Finset.sum_eq_zero fun k _ => by simp [colorPointCost, hq2 k]
  · simp only [colorEvaluate, reqAll, Req.allFive]
    rw [if_neg htz, hstate2]
    simp only [Bool.and_self, if_true]
    exact blocksSum_eq_zero _ _ fun k => by simp [colorPointBlocks, hq2 k]

/-- witness for C7: zero maximum distance over the concrete one-point factors. -/
theorem C7_witness :
    gicpStateFresh.corr 0 = none ∧
    (gicpEvaluate gicpFactorMax0 gicpStateFresh isoId reqAll Blocks.zero).cost = 0 ∧
    (gicpEvaluate gicpFactorMax0 gicpStateFresh isoId reqAll Blocks.zero).out =
      Blocks.zero ∧
    (colorEvaluate colorFactorMax0 colorStateFresh isoId reqAll Blocks.zero).cost = 0 ∧
    (colorEvaluate colorFactorMax0 colorStateFresh isoId reqAll Blocks.zero).out =
      Blocks.zero := by
  have hnn : ∀ q m j d, gicpFactorMax0.targetTree q m = some (j, d) → (0:ℝ) ≤ d := by
    intro q m j d h
    simp only [gicpFactorMax0, treeEx, Option.some.injEq, Prod.mk.injEq] at h
    exact le_of_eq h.2
  have hnn2 : ∀ q m j d, colorFactorMax0.targetTree q m = some (j, d) → (0:ℝ) ≤ d := by
    intro q m j d h
    simp only [colorFactorMax0, treeEx, Option.some.injEq, Prod.mk.injEq] at h
    exact le_of_eq h.2
  have h := C7_unmatched_contributes_nothing gicpFactorMax0 gicpStateFresh
    colorFactorMax0 colorStateFresh isoId 0 Blocks.zero rfl rfl hnn rfl
    (by norm_num [gicpStateFresh, gicpFactorMax0, frameEx]) hnn2 rfl
    (by norm_num [colorStateFresh, colorFactorMax0, frameEx])
  exact ⟨rfl, h.2.1.2.1, h.2.1.2.2, h.2.2.2.1, h.2.2.2.2⟩

lemma isoMat_w4_row (d : Iso) (a : V4) : d.mat w4 a = if a = w4 then 1 else 0 := by
  rcases a with c | c
  · simp [Iso.mat, w4, Matrix.fromBlocks_apply₂₁]
  · have hc : c = 0 := Subsingleton.elim _ _
    subst hc
    simp [Iso.mat, w4, Matrix.fromBlocks_apply₂₂, Matrix.one_apply]

lemma mul_cov_w4_row (d : Iso) (C : Mat4) (hC : ∀ k, C w4 k = 0) (b : V4) :
    (d.mat * C) w4 b = 0 := by
  rw [Matrix.mul_apply]
  have h : ∀ a, d.mat w4 a * C a b = if a = w4 then C a b else 0 := fun a => by
    rw [isoMat_w4_row]
    by_cases ha : a = w4 <;> simp [ha]
  rw [Finset.sum_congr rfl fun a _ => h a, Finset.sum_ite_eq']
  simp [hC]

lemma rcr_w4_row (f : GicpFactor) (delta : Iso) (i j : ℕ)
    (htr : ∀ k, f.target.cov j w4 k = 0) (hsr : ∀ k, f.source.cov i w4 k = 0) (k : V4) :
    (f.target.cov j + delta.mat * f.source.cov i * delta.matᵀ) w4 k = 0 := by
  rw [Matrix.add_apply, htr k, zero_add, Matrix.mul_apply]
  exact Finset.sum_eq_zero fun b _ => by
    rw [mul_cov_w4_row delta _ hsr b, zero_mul]

lemma rcr_w4_col (f : GicpFactor) (delta : Iso) (i j : ℕ)
    (htc : ∀ k, f.target.cov j k w4 = 0) (hsc : ∀ k, f.source.cov i k w4 = 0) (k : V4) :
    (f.target.cov j + delta.mat * f.source.cov i * delta.matᵀ) k w4 = 0 := by
  rw [Matrix.add_apply, htc k, zero_add, Matrix.mul_apply]
  have h : ∀ b, (delta.mat * f.source.cov i) k b * delta.matᵀ b w4 =
      if b = w4 then (delta.mat * f.source.cov i) k b else 0 := fun b => by
    rw [Matrix.transpose_apply, isoMat_w4_row]
    by_cases hb : b = w4 <;> simp [hb]
  rw [Finset.sum_congr rfl fun b _ => h b, Finset.sum_ite_eq']
  have h2 : (delta.mat * f.source.cov i) k w4 = 0 := by
    rw [Matrix.mul_apply]
    exact Finset.sum_eq_zero fun a _ => by rw [hsc a, mul_zero]
  simp [h2]

lemma setW33_apply_ne (M : Mat4) (a : ℝ) (r c : V4) (h : ¬(r = w4 ∧ c = w4)) :
    setW33 M a r c = M r c := by
  simp [setW33, h]

lemma setW33_apply_w4 (M : Mat4) (a : ℝ) : setW33 M a w4 w4 = a := by
  simp [setW33]

lemma inv_w4_row_col (A : Mat4)
    (hrow : ∀ k, A w4 k = if k = w4 then 1 else 0)
    (hcol : ∀ k, A k w4 = if k = w4 then 1 else 0) :
    (∀ k, k ≠ w4 → A⁻¹ w4 k = 0) ∧ (∀ k, k ≠ w4 → A⁻¹ k w4 = 0) := by
  by_cases hdet : IsUnit A.det
  · constructor
    · intro k hk
      have h1 : (A * A⁻¹) w4 k = A⁻¹ w4 k := by
        rw [Matrix.mul_apply]
        have h : ∀ a, A w4 a * A⁻¹ a k = if a = w4 then A⁻¹ a k else 0 := fun a => by
          rw [hrow]
          by_cases ha : a = w4 <;> simp [ha]
        rw [Finset.sum_congr rfl fun a _ => h a, Finset.sum_ite_eq']
        simp
      rw [Matrix.mul_nonsing_inv _ hdet] at h1
      rw [← h1]
      exact Matrix.one_apply_ne (Ne.symm hk)
    · intro k hk
      have h1 : (A⁻¹ * A) k w4 = A⁻¹ k w4 := by
        rw [Matrix.mul_apply]
        have h : ∀ a, A⁻¹ k a * A a w4 = if a = w4 then A⁻¹ k a else 0 := fun a => by
          rw [hcol]
          by_cases ha : a = w4 <;> simp [ha]
        rw [Finset.sum_congr rfl fun a _ => h a, Finset.sum_ite_eq']
        simp
      rw [Matrix.nonsing_inv_mul _ hdet] at h1
      rw [← h1]
      exact Matrix.one_apply_ne hk
  · rw [Matrix.nonsing_inv_apply_not_isUnit _ hdet]
    exact ⟨fun k _ => Matrix.zero_apply _ _, fun k _ => Matrix.zero_apply _ _⟩

/-- C4 (amended): the code zeroes only the homogeneous (3,3) entry of the inverted
composed covariance, not a whole row and column; nevertheless the full fourth row and
fourth column of the stored weight vanish whenever the input covariances themselves have
zero fourth row and column (the shape of 4×4 homogeneous point covariances), because the
composed-and-fixed matrix then has homogeneous row and column equal to the unit vector,
which its inverse must reproduce. -/
theorem C4_weight_zero_fourth_row_col
    (f : GicpFactor) (delta : Iso) (i j : ℕ)
    (htr : ∀ k, f.target.cov j w4 k = 0) (htc : ∀ k, f.target.cov j k w4 = 0)
    (hsr : ∀ k, f.source.cov i w4 k = 0) (hsc : ∀ k, f.source.cov i k w4 = 0) :
    (∀ k, mahalWeight f delta i (some j) w4 k = 0) ∧
      (∀ k, mahalWeight f delta i (some j) k w4 = 0) := by
  have hrow0 := rcr_w4_row f delta i j htr hsr
  have hcol0 := rcr_w4_col f delta i j htc hsc
  have hrow : ∀ k, (setW33 (f.target.cov j + delta.mat * f.source.cov i * delta.matᵀ) 1)
      w4 k = if k = w4 then 1 else 0 := fun k => by
    by_cases hk : k = w4
    · subst hk
      rw [setW33_apply_w4, if_pos rfl]
    · rw [if_neg hk, setW33_apply_ne _ _ _ _ fun hcon => hk hcon.2]
      exact hrow0 k
  have hcol : ∀ k, (setW33 (f.target.cov j + delta.mat * f.source.cov i * delta.matᵀ) 1)
      k w4 = if k = w4 then 1 else 0 := fun k => by
    by_cases hk : k = w4
    · subst hk
      rw [setW33_apply_w4, if_pos rfl]
    · rw [if_neg hk, setW33_apply_ne _ _ _ _ fun hcon => hk hcon.1]
      exact hcol0 k
  obtain ⟨hr, hc⟩ := inv_w4_row_col _ hrow hcol
  constructor
  · intro k
    show setW33 (setW33 (f.target.cov j + delta.mat * f.source.cov i * delta.matᵀ) 1)⁻¹
      0 w4 k = 0
    by_cases hk : k = w4
    · subst hk
      rw [setW33_apply_w4]
    · rw [setW33_apply_ne _ _ _ _ fun hcon => hk hcon.2]
      exact hr k hk
  · intro k
    show setW33 (setW33 (f.target.cov j + delta.mat * f.source.cov i * delta.matᵀ) 1)⁻¹
      0 k w4 = 0
    by_cases hk : k = w4
    · subst hk
      rw [setW33_apply_w4]
    · rw [setW33_apply_ne _ _ _ _ fun hcon => hk hcon.1]
      exact hc k hk

lemma covGeo_w4_row (k : V4) : covGeo w4 k = 0 := by
  rcases k with k | k <;>
    simp [covGeo, w4, Matrix.fromBlocks_apply₂₁, Matrix.fromBlocks_apply₂₂]

lemma covGeo_w4_col (k : V4) : covGeo k w4 = 0 := by
  rcases k with k | k <;>
    simp [covGeo, w4, Matrix.fromBlocks_apply₁₂, Matrix.fromBlocks_apply₂₂]

/-- witness for the amended C4 at the zero-fourth-row/column covariance `covGeo`. -/
theorem C4_witness :
    covGeo w4 (Sum.inl 0) = 0 ∧
    mahalWeight gicpFactorGeo isoId 0 (some 0) w4 (Sum.inl 0) = 0 ∧
    mahalWeight gicpFactorGeo isoId 0 (some 0) (Sum.inl 1) w4 = 0 := by
  have h := C4_weight_zero_fourth_row_col gicpFactorGeo isoId 0 0
    covGeo_w4_row covGeo_w4_col covGeo_w4_row covGeo_w4_col
  exact ⟨covGeo_w4_row (Sum.inl 0), h.1 (Sum.inl 0), h.2 (Sum.inl 1)⟩

lemma covC4_w4w4 : covC4 w4 w4 = 1 := by
  simp [covC4, w4, Matrix.fromBlocks_apply₂₂, Matrix.one_apply]

lemma setW33_eq_self (M : Mat4) (h : M w4 w4 = 1) : setW33 M 1 = M := by
  ext r c
  by_cases hrc : r = w4 ∧ c = w4
  · obtain ⟨hr, hc⟩ := hrc
    subst hr; subst hc
    simp [setW33, h]
  · simp [setW33, hrc]

lemma covC4_mul_inv : covC4 * covC4inv = 1 := by
  ext r c
  rw [Matrix.mul_apply, Fintype.sum_sum_type]
  rcases r with r | r <;> rcases c with c | c <;> fin_cases r <;> fin_cases c <;>
    simp [covC4, covC4inv, Matrix.fromBlocks_apply₁₁, Matrix.fromBlocks_apply₁₂,
      Matrix.fromBlocks_apply₂₁, Matrix.fromBlocks_apply₂₂, Fin.sum_univ_three,
      Fin.sum_univ_one, Matrix.one_apply, Matrix.vecHead, Matrix.vecTail,
      Sum.inl.injEq, Sum.inr.injEq] <;>
    norm_num

lemma covC4_inv_eq : covC4⁻¹ = covC4inv := Matrix.inv_eq_right_inv covC4_mul_inv

/-- C4 (counterexample): the claim asserts the weight's entire fourth row and column are
zeroed so arbitrary covariances cannot weight the homogeneous coordinate; the code only
zeroes the (3,3) entry, and for a (symmetric positive-definite) covariance with a
nonzero homogeneous off-diagonal entry the stored weight keeps a nonzero fourth-row
entry. -/
theorem C4_counterexample :
    mahalWeight gicpFactorC4 isoId 0 (some 0) w4 (Sum.inl 2) ≠ 0 := by
  have hRCR : gicpFactorC4.target.cov 0 +
      isoId.mat * gicpFactorC4.source.cov 0 * isoId.matᵀ = covC4 := by
    have hz : gicpFactorC4.source.cov 0 = 0 := rfl
    have ht : gicpFactorC4.target.cov 0 = covC4 := rfl
    rw [hz, ht, Matrix.mul_zero, Matrix.zero_mul, add_zero]
  have hw : mahalWeight gicpFactorC4 isoId 0 (some 0) = setW33 covC4inv 0 := by
    show setW33 (setW33 (gicpFactorC4.target.cov 0 +
      isoId.mat * gicpFactorC4.source.cov 0 * isoId.matᵀ) 1)⁻¹ 0 = setW33 covC4inv 0
    rw [hRCR, setW33_eq_self covC4 covC4_w4w4, covC4_inv_eq]
  rw [hw]
  have hentry : setW33 covC4inv 0 w4 (Sum.inl 2) = -1 := by
    have : setW33 covC4inv 0 w4 (Sum.inl 2) = covC4inv w4 (Sum.inl 2) := by
      simp [setW33, w4]
    rw [this]
    simp [covC4inv, w4, Matrix.fromBlocks_apply₂₁, Matrix.cons_val_two, Matrix.vecHead,
      Matrix.vecTail]
  rw [hentry]
  norm_num

lemma head3_p0 : head3 p0Ex = 0 := rfl

lemma gicpJtarget_p0 : gicpJtarget p0Ex = Matrix.fromBlocks 0 1 0 0 := by
  unfold gicpJtarget
  rw [head3_p0, so3Hat_zero, neg_zero]

lemma gicpCorrQuery_ex (k : ℕ) : gicpCorrQuery gicpFactorEx isoId k = some 0 := by
  show (if (0 : ℝ) < (1 : ℝ) then some 0 else none) = some 0
  rw [if_pos one_pos]

lemma gicpError_ex (k : ℕ) : gicpError gicpFactorEx isoId k 0 = 0 := by
  unfold gicpError
  rw [isoId_apply]
  exact sub_self p0Ex

lemma setW33_two : setW33 ((1 : Mat4) + 1) 1 = matTwo := by
  ext r c
  by_cases hrc : r = w4 ∧ c = w4
  · obtain ⟨hr, hc⟩ := hrc
    subst hr; subst hc
    rw [setW33_apply_w4]
    simp [matTwo, w4, Matrix.fromBlocks_apply₂₂, Matrix.one_apply]
  · rw [setW33_apply_ne _ _ _ _ hrc]
    rcases r with r | r
    · rcases c with c | c
      · by_cases h : r = c <;>
          · simp [matTwo, Matrix.fromBlocks_apply₁₁, Matrix.add_apply, Matrix.one_apply,
              Matrix.smul_apply, Sum.inl.injEq, h]
            try norm_num
      · simp [matTwo, Matrix.fromBlocks_apply₁₂, Matrix.add_apply, Matrix.one_apply]
    · rcases c with c | c
      · simp [matTwo, Matrix.fromBlocks_apply₂₁, Matrix.add_apply, Matrix.one_apply]
      · exact absurd ⟨by rw [Subsingleton.elim r (0 : Fin 1)]; rfl,
          by rw [Subsingleton.elim c (0 : Fin 1)]; rfl⟩ hrc

lemma matTwo_mul_inv : matTwo * matTwoInv = 1 := by
  ext r c
  rw [Matrix.mul_apply, Fintype.sum_sum_type]
  rcases r with r | r <;> rcases c with c | c <;> fin_cases r <;> fin_cases c <;>
    simp [matTwo, matTwoInv, Matrix.fromBlocks_apply₁₁, Matrix.fromBlocks_apply₁₂,
      Matrix.fromBlocks_apply₂₁, Matrix.fromBlocks_apply₂₂, Fin.sum_univ_three,
      Fin.sum_univ_one, Matrix.one_apply, Matrix.smul_apply, Sum.inl.injEq,
      Sum.inr.injEq]

lemma matTwoInv_eq : (setW33 ((1 : Mat4) + 1) 1)⁻¹ = matTwoInv := by
  rw [setW33_two]
  exact Matrix.inv_eq_right_inv matTwo_mul_inv

lemma setW33_matTwoInv : setW33 matTwoInv 0 = wGeo := by
  ext r c
  by_cases hrc : r = w4 ∧ c = w4
  · obtain ⟨hr, hc⟩ := hrc
    subst hr; subst hc
    rw [setW33_apply_w4]
    simp [wGeo, w4, Matrix.fromBlocks_apply₂₂]
  · rw [setW33_apply_ne _ _ _ _ hrc]
    rcases r with r | r
    · rcases c with c | c <;>
        simp [matTwoInv, wGeo, Matrix.fromBlocks_apply₁₁, Matrix.fromBlocks_apply₁₂]
    · rcases c with c | c
      · simp [matTwoInv, wGeo, Matrix.fromBlocks_apply₂₁]
      · exact absurd ⟨by rw [Subsingleton.elim r (0 : Fin 1)]; rfl,
          by rw [Subsingleton.elim c (0 : Fin 1)]; rfl⟩ hrc

lemma mahalWeight_ex (k : ℕ) : mahalWeight gicpFactorEx isoId k (some 0) = wGeo := by
  show setW33 (setW33 (gicpFactorEx.target.cov 0 +
    isoId.mat * gicpFactorEx.source.cov k * isoId.matᵀ) 1)⁻¹ 0 = wGeo
  have h1 : gicpFactorEx.target.cov 0 + isoId.mat * gicpFactorEx.source.cov k * isoId.matᵀ
      = (1 : Mat4) + 1 := by
    have ht : gicpFactorEx.target.cov 0 = 1 := rfl
    have hs : gicpFactorEx.source.cov k = 1 := rfl
    rw [ht, hs, isoId_mat, Matrix.transpose_one, Matrix.mul_one, Matrix.one_mul]
  rw [h1, matTwoInv_eq, setW33_matTwoInv]

lemma Ht_entry_ex :
    ((gicpJtarget p0Ex)ᵀ * wGeo * gicpJtarget p0Ex) (Sum.inr 0) (Sum.inr 0) = 1 / 2 := by
  rw [gicpJtarget_p0]
  rw [show wGeo = Matrix.fromBlocks (((1 : ℝ) / 2) • (1 : Matrix (Fin 3) (Fin 3) ℝ)) 0 0 0
    from rfl]
  rw [Matrix.fromBlocks_transpose, Matrix.fromBlocks_multiply, Matrix.fromBlocks_multiply,
    Matrix.fromBlocks_apply₂₂]
  simp [Matrix.transpose_zero, Matrix.transpose_one, Matrix.smul_apply, Matrix.one_apply]

/-- C6 (counterexample): with source cloud equal to the target cloud (one point),
identity covariances, and identity delta, `evaluate` does return cost 0, but the
`H_target` block it writes is the nonzero Gauss-Newton matrix `Jᵀ W J`: not all five
derivative output blocks are zero, refuting the claim. -/
theorem C6_counterexample :
    (gicpEvaluate gicpFactorEx gicpStateFresh isoId reqAll Blocks.zero).cost = 0 ∧
    (gicpEvaluate gicpFactorEx gicpStateFresh isoId reqAll Blocks.zero).out.Ht
        (Sum.inr 0) (Sum.inr 0) = 1 / 2 ∧
    (1 / 2 : ℝ) ≠ 0 := by
  have hsz : ¬ (gicpStateFresh.corrSize = gicpFactorEx.source.size) := by
    simp [gicpStateFresh, gicpFactorEx, frameEx]
  have hns : ¬ skipRefresh gicpStateFresh.corrSize gicpFactorEx.source.size
      gicpFactorEx.tolRot gicpFactorEx.tolTrans gicpStateFresh.last isoId := by
    unfold skipRefresh
    exact fun hk => hsz hk.1
  have hstate : (gicpUpdate gicpFactorEx gicpStateFresh isoId).1 =
      ⟨fun k => gicpCorrQuery gicpFactorEx isoId k, gicpFactorEx.source.size,
        fun k => mahalWeight gicpFactorEx isoId k (gicpCorrQuery gicpFactorEx isoId k),
        isoId⟩ := by
    unfold gicpUpdate
    rw [if_neg hns]
  refine ⟨?_, ?_, by norm_num⟩
  · simp only [gicpEvaluate]
    rw [if_neg hsz, hstate]
    refine Finset.sum_eq_zero fun k _ => ?_
    simp only [gicpPointCost, gicpCorrQuery_ex, gicpError_ex]
    simp
  · simp only [gicpEvaluate]
    rw [if_neg hsz, hstate]
    simp only [reqAll, Req.allFive, Bool.and_self, if_true, blocksSum]
    rw [show gicpFactorEx.source.size = 1 from rfl, Finset.sum_range_one]
    simp only [gicpPointBlocks, gicpCorrQuery_ex, mahalWeight_ex]
    rw [show Iso.apply isoId (gicpFactorEx.source.point 0) = p0Ex from isoId_apply p0Ex]
    exact Ht_entry_ex

/-- C6 (amended): in the identity scenario (source cloud equal to the target cloud,
identity covariances, identity delta, every stored correspondence matching a target
point with the same coordinates), `evaluate` returns scalar cost 0 and zero bias
vectors `b_target` and `b_source`; the three Hessian blocks are the Gauss-Newton
`Jᵀ W J` sums, which are in general nonzero. -/
theorem C6_identity_scenario_cost_and_bias_zero
    (f : GicpFactor) (s : GicpState) (out : Blocks)
    (_hcloud : f.target = f.source) (_hcov : ∀ j, f.target.cov j = 1)
    (hsz : s.corrSize = f.source.size)
    (hmatch : ∀ i j, s.corr i = some j → f.target.point j = f.source.point i) :
    (gicpEvaluate f s isoId reqAll out).cost = 0 ∧
      (gicpEvaluate f s isoId reqAll out).out.bt = 0 ∧
      (gicpEvaluate f s isoId reqAll out).out.bs = 0 := by
  have he : ∀ i j, s.corr i = some j → gicpError f isoId i j = 0 := fun i j hij => by
    unfold gicpError
    rw [isoId_apply, hmatch i j hij, sub_self]
  refine ⟨?_, ?_, ?_⟩
  · simp only [gicpEvaluate]
    rw [if_pos hsz]
    refine Finset.sum_eq_zero fun i _ => ?_
    rcases hc : s.corr i with _ | j
    · simp [gicpPointCost, hc]
    · simp [gicpPointCost, hc, he i j hc]
  · simp only [gicpEvaluate]
    rw [if_pos hsz]
    simp only [reqAll, Req.allFive, Bool.and_self, if_true, blocksSum]
    refine Finset.sum_eq_zero fun i _ => ?_
    rcases hc : s.corr i with _ | j
    · simp [gicpPointBlocks, hc, Blocks.zero]
    · simp [gicpPointBlocks, hc, he i j hc]
  · simp only [gicpEvaluate]
    rw [if_pos hsz]
    simp only [reqAll, Req.allFive, Bool.and_self, if_true, blocksSum]
    refine Finset.sum_eq_zero fun i _ => ?_
    rcases hc : s.corr i with _ | j
    · simp [gicpPointBlocks, hc, Blocks.zero]
    · simp [gicpPointBlocks, hc, he i j hc]

/-- witness for the amended C6 at the concrete one-point identity scenario. -/
theorem C6_witness :
    gicpFactorEx.target = gicpFactorEx.source ∧
    (gicpEvaluate gicpFactorEx gicpStateEx isoId reqAll Blocks.zero).cost = 0 ∧
    (gicpEvaluate gicpFactorEx gicpStateEx isoId reqAll Blocks.zero).out.bt = 0 ∧
    (gicpEvaluate gicpFactorEx gicpStateEx isoId reqAll Blocks.zero).out.bs = 0 := by
  have h := C6_identity_scenario_cost_and_bias_zero gicpFactorEx gicpStateEx Blocks.zero
    rfl (fun _ => rfl) rfl (fun _ _ _ => rfl)
  exact ⟨rfl, h.1, h.2.1, h.2.2⟩

end GtsamPoints
